import Mathlib

/-!
# gosoap: the envelope lifecycle of the SOAP client (soap.go)

A shallow embedding of `soap.go`.  The client is a record; every method is a
function from the client state to the new client state and the returned
values.  The pieces of the Go standard library that the methods call
(`encoding/xml`, `net/http`) are parameters of the model: a record of
functions, one per call site.  `strings.Contains`, `strings.TrimLeft` and
`strings.TrimRight` are modelled on lists of characters.
-/

set_option maxRecDepth 100000

namespace gosoap

/-! ## Data model -/

/-- A Go byte slice (`[]byte`); the nil slice and the empty slice are both `[]`. -/
abbrev Bytes := List (Fin 256)

/-- The bytes of a text made of ASCII characters. -/
def asciiBytes (s : String) : Bytes :=
  s.data.map fun ch => Fin.ofNat ch.toNat

/-- Go `type Params map[string]string`, as an association list. -/
abbrev Params := List (String × String)

/-- An error value produced by the standard library (`encoding/xml`, `net/http`,
`net/url`); `msg` is what its `Error()` method returns. -/
structure LibError where
  msg : String
  deriving DecidableEq, Repr

/-- A Go `error` value as this package hands it to its caller: either a value this
package builds itself with `errors.New` / `fmt.Errorf`, or a library error value
passed on unchanged (`return err`). -/
inductive GoError where
  | text (msg : String)
  | lib (err : LibError)
  deriving DecidableEq, Repr

/-- The `Error()` method. -/
def GoError.Error : GoError → String
  | .text msg => msg
  | .lib err => err.msg

/-- Modelled from the spec: the declaration of `wsdlDefinitions` is not part of
soap.go; the spec describes the definition model as carrying the target namespace. -/
structure wsdlDefinitions where
  TargetNamespace : String
  deriving DecidableEq, Repr

/-- Modelled from the spec: the declaration of `Fault` is not part of soap.go;
soap.go reads its fields `Code` and `Description`, the spec gives a fault as
a code and a description. -/
structure Fault where
  Code : String
  Description : String
  deriving DecidableEq, Repr

/-- Go `type Client struct`; `Definitions` is a pointer, `none` is nil. -/
structure Client where
  WSDL : String
  URL : String
  Method : String
  EnvelopeTitle : String
  Params : Params
  Definitions : Option wsdlDefinitions
  Body : Bytes
  payload : Bytes
  deriving DecidableEq, Repr

/-- Go `type SoapBody struct`: `Contents` is the inner XML of the body element
(`XMLName struct{}` carries no data). -/
structure SoapBody where
  Contents : Bytes
  deriving DecidableEq, Repr

/-- Go `type SoapEnvelope struct`. -/
structure SoapEnvelope where
  Body : SoapBody
  deriving DecidableEq, Repr

/-- Go `type SecurityProviderAuthenticate struct`. -/
structure SecurityProviderAuthenticate where
  Response : String
  deriving DecidableEq, Repr

/-! ## The standard library, as parameters -/

/-- The calls into `encoding/xml` made by soap.go, one field per call site.
`Marshal` is `xml.Marshal(c)` (it reads the client and does not write to it);
the three decoders are `xml.Unmarshal` into a fresh `SoapEnvelope`,
`SecurityProviderAuthenticate` and `Fault`. -/
structure XmlLib where
  Marshal : Client → Except LibError Bytes
  UnmarshalEnvelope : Bytes → Except LibError SoapEnvelope
  UnmarshalSPAuth : Bytes → Except LibError SecurityProviderAuthenticate
  UnmarshalFault : Bytes → Except LibError Fault

/-- The request handed to `client.Do`: the fields `doRequest` sets.  Header names
are the ones passed to `Header.Add`. -/
structure Request where
  Method : String
  URL : String
  Body : Bytes
  ContentLength : Nat
  Header : List (String × String)
  deriving DecidableEq, Repr

/-- What reading the response body to its end gives (`ioutil.ReadAll(resp.Body)`):
the bytes read and the read error, if any. -/
structure Response where
  Body : Bytes
  readErr : Option LibError
  deriving DecidableEq, Repr

/-- The calls into `net/http` made by `doRequest`: `NewRequest` gives the error of
`http.NewRequest(method, url, body)`, if any; `Do` is `client.Do(req)`. -/
structure HttpLib where
  NewRequest : String → String → Option LibError
  Do : Request → Except LibError Response

/-! ## `strings`

A Go string is a sequence of bytes; the texts here are sequences of Unicode
characters.  The needle and the two cutsets used by soap.go are ASCII, and on
well-formed UTF-8 the byte-wise search and the trims by an ASCII cutset cut at
character boundaries, so the two views give the same results. -/

/-- Whether `sub` occurs in `s` as a contiguous run. -/
def containsChars : List Char → List Char → Bool
  | [], sub => sub.isEmpty
  | ch :: rest, sub => sub.isPrefixOf (ch :: rest) || containsChars rest sub

/-- Go `strings.Contains(s, substr)`. -/
def Contains (s substr : String) : Bool :=
  containsChars s.data substr.data

/-- Go `strings.TrimRight(s, cutset)`: `s` without its trailing characters that
occur in `cutset`. -/
def TrimRight (s cutset : String) : String :=
  ⟨s.data.rdropWhile fun ch => cutset.data.contains ch⟩

/-- Go `strings.TrimLeft(s, cutset)`: `s` without its leading characters that
occur in `cutset`. -/
def TrimLeft (s cutset : String) : String :=
  ⟨s.data.dropWhile fun ch => cutset.data.contains ch⟩

/-- The characters of the cutset `&lt;/JournalNumber&gt;` given to `TrimRight`. -/
def trailingSet : List Char :=
  ['&', 'l', 't', ';', '/', 'J', 'o', 'u', 'r', 'n', 'a', 'N', 'm', 'b', 'e', 'g']

/-- The characters of the cutset `&lt;JournalNumber&gt;` given to `TrimLeft`. -/
def leadingSet : List Char :=
  ['&', 'l', 't', ';', 'J', 'o', 'u', 'r', 'n', 'a', 'N', 'm', 'b', 'e', 'g']

/-! ## The methods of `Client` -/

/-- What `SoapClient` needs from outside soap.go: `url.Parse` (its error, if any)
and `getWsdlDefinitions`. -/
structure Loader where
  urlParse : String → Option LibError
  getWsdlDefinitions : String → Except LibError wsdlDefinitions

/-- Go `func SoapClient(wsdl string, urlSoap string) (*Client, error)`. -/
def SoapClient (ld : Loader) (wsdl urlSoap : String) : Except GoError Client :=
  match ld.urlParse wsdl with
  | some err => .error (.lib err)
  | none =>
    match ld.getWsdlDefinitions wsdl with
    | .error err => .error (.lib err)
    | .ok d =>
      .ok { WSDL := wsdl, URL := urlSoap, Method := "", EnvelopeTitle := "", Params := [],
            Definitions := some d, Body := [], payload := [] }

/-- Go `func (c *Client) doRequest() ([]byte, error)`.  The first component is the
request handed to `client.Do`, when that step is reached. -/
def doRequest (net : HttpLib) (c : Client) : Option Request × Bytes × Option LibError :=
  match net.NewRequest "POST" c.URL with
  | some err => (none, [], some err)
  | none =>
    let req : Request :=
      { Method := "POST", URL := c.URL, Body := c.payload,
        ContentLength := c.payload.length,
        Header := [("Content-Type", "text/xml;charset=UTF-8"),
                   ("Accept", "text/xml"),
                   ("SOAPAction", c.URL ++ "/" ++ c.Method)] }
    match net.Do req with
    | .error err => (some req, [], some err)
    | .ok resp => (some req, resp.Body, resp.readErr)

/-- The outcome of `Call`: the client afterwards, the request handed to the
transport (if that step was reached) and the returned error (`none` is nil). -/
structure CallResult where
  client : Client
  sent : Option Request
  err : Option GoError
  deriving DecidableEq, Repr

/-- Go `func (c *Client) Call(m string, e string, p Params) (err error)`.
The final `return err` returns the function's own `err`, which is nil there: the
`err` of the `if err := xml.Unmarshal(...)` statement is local to that statement. -/
def Call (x : XmlLib) (net : HttpLib) (c : Client) (m e : String) (p : Params) : CallResult :=
  let c1 := { c with EnvelopeTitle := m }
  let c2 := { c1 with Method := e }
  let c3 := { c2 with Params := p }
  let r := x.Marshal c3
  let c4 := { c3 with payload := match r with
                                 | .ok b => b
                                 | .error _ => [] }
  let c5 := { c4 with Method := m }
  match r with
  | .error err => ⟨c5, none, some (.lib err)⟩
  | .ok _ =>
    match doRequest net c5 with
    | (sent, _, some err) => ⟨c5, sent, some (.lib err)⟩
    | (sent, b, none) =>
      match x.UnmarshalEnvelope b with
      | .error err =>
        ⟨c5, sent, some (.text ("an error occurred decoding the body: " ++ err.msg))⟩
      | .ok soap => ⟨{ c5 with Body := soap.Body.Contents }, sent, none⟩

/-- Go `func (c *Client) GetResponse() (string, error)`; the first component is the
client afterwards.  `[]byte(string(c.Body))` is `c.Body` again, so the decoder is
given the Body itself. -/
def GetResponse (x : XmlLib) (c : Client) : Client × String × Option GoError :=
  if c.Body.length = 0 then
    (c, "", some (.text "body is empty"))
  else
    match x.UnmarshalSPAuth c.Body with
    | .error err => (c, "", some (.text ("an error occurred decoding the body: " ++ err.msg)))
    | .ok SPAuth =>
      let sss := SPAuth.Response
      if c.Method = "Execute" then
        if Contains sss "status=\"fail\"" then
          (c, "", some (.text "the operation could not be performed"))
        else
          (c, TrimLeft (TrimRight sss "&lt;/JournalNumber&gt;") "&lt;JournalNumber&gt;", none)
      else
        (c, sss, none)

/-- Go `func (c *Client) Unmarshal(v interface{}) error`.  The target `v` is a
value of some type `T` together with `into`, what `xml.Unmarshal(data, v)` does to
a target of that type: the target afterwards and the error, if any.  The result
is the client afterwards, the target afterwards and the returned error. -/
def Unmarshal {T : Type} (x : XmlLib) (into : Bytes → T → T × Option LibError)
    (c : Client) (v : T) : Client × T × Option GoError :=
  if c.Body.length = 0 then
    (c, v, some (.text "body is empty"))
  else
    match x.UnmarshalFault c.Body with
    | .error err => (c, v, some (.text ("an error occurred decoding the body: " ++ err.msg)))
    | .ok f =>
      if f.Code ≠ "" then
        (c, v, some (.text ("[" ++ f.Code ++ "]: " ++ f.Description)))
      else
        (c, (into c.Body v).1, (into c.Body v).2.map GoError.lib)

/-- The client as `Call m e p` leaves it when no Result Body is stored: `payload`
is the outcome of serialising the client with the title `m` and the method `e`. -/
def afterCall (x : XmlLib) (c : Client) (m e : String) (p : Params) : Client :=
  { c with
    EnvelopeTitle := m, Method := m, Params := p,
    payload := match x.Marshal { c with EnvelopeTitle := m, Method := e, Params := p } with
               | .ok b => b
               | .error _ => [] }

/-! ## A scripted server, for concrete runs

A fixed instance of the library parameters: an XML library that knows a handful
of documents and an HTTP layer with one scripted host per kind of answer. -/

/-- A fault document: code `Server.InvalidParam`, description `bad value`. -/
def faultBody : Bytes :=
  asciiBytes "<Fault><faultcode>Server.InvalidParam</faultcode><faultstring>bad value</faultstring></Fault>"

/-- A result document without a fault. -/
def resultBody : Bytes := asciiBytes "<result><value>42</value></result>"

/-- A response document whose text is `<SSC status="fail"/>`. -/
def failBody : Bytes := asciiBytes "<r><response>&lt;SSC status=\"fail\"/&gt;</response></r>"

/-- The text of `failBody`. -/
def failText : String := "<SSC status=\"fail\"/>"

/-- A response document whose text is `&lt;JournalNumber&gt;ABC123&lt;/JournalNumber&gt;`. -/
def journalBody : Bytes :=
  asciiBytes "<r><response>&amp;lt;JournalNumber&amp;gt;ABC123&amp;lt;/JournalNumber&amp;gt;</response></r>"

/-- The text of `journalBody`. -/
def journalText : String := "&lt;JournalNumber&gt;ABC123&lt;/JournalNumber&gt;"

/-- A response document whose text is
`&lt;JournalNumber&gt;JRN-2024-00017&lt;/JournalNumber&gt;`. -/
def ledgerBody : Bytes :=
  asciiBytes "<r><response>&amp;lt;JournalNumber&amp;gt;JRN-2024-00017&amp;lt;/JournalNumber&amp;gt;</response></r>"

/-- The text of `ledgerBody`. -/
def ledgerText : String := "&lt;JournalNumber&gt;JRN-2024-00017&lt;/JournalNumber&gt;"

/-- Opening tags of the scripted envelope. -/
def envelopeOpen : Bytes := asciiBytes "<Envelope><Body>"

/-- Closing tags of the scripted envelope. -/
def envelopeClose : Bytes := asciiBytes "</Body></Envelope>"

/-- The scripted envelope around a body. -/
def wrapEnvelope (body : Bytes) : Bytes := envelopeOpen ++ body ++ envelopeClose

/-- The scripted XML library. -/
def scriptedXml : XmlLib where
  Marshal c :=
    if c.EnvelopeTitle = "" then .error ⟨"xml: start tag with no name"⟩
    else .ok (asciiBytes
      ("<" ++ c.EnvelopeTitle ++ "><" ++ c.Method ++ "/></" ++ c.EnvelopeTitle ++ ">"))
  UnmarshalEnvelope b :=
    if envelopeOpen.isPrefixOf b && envelopeClose.isSuffixOf b then
      .ok ⟨⟨(b.drop envelopeOpen.length).take
              (b.length - envelopeOpen.length - envelopeClose.length)⟩⟩
    else .error ⟨"expected element type <Envelope>"⟩
  UnmarshalSPAuth b :=
    if b = [] then .error ⟨"EOF"⟩
    else if b = failBody then .ok ⟨failText⟩
    else if b = journalBody then .ok ⟨journalText⟩
    else if b = ledgerBody then .ok ⟨ledgerText⟩
    else .ok ⟨""⟩
  UnmarshalFault b :=
    if b = [] then .error ⟨"EOF"⟩
    else if b = faultBody then .ok ⟨"Server.InvalidParam", "bad value"⟩
    else .ok ⟨"", ""⟩

/-- The scripted HTTP layer: the host name selects the answer. -/
def scriptedNet : HttpLib where
  NewRequest _ url := if url = ":" then some ⟨"parse \":\": missing protocol scheme"⟩ else none
  Do req :=
    if req.URL = "http://fault.test" then .ok ⟨wrapEnvelope faultBody, none⟩
    else if req.URL = "http://result.test" then .ok ⟨wrapEnvelope resultBody, none⟩
    else if req.URL = "http://fail.test" then .ok ⟨wrapEnvelope failBody, none⟩
    else if req.URL = "http://journal.test" then .ok ⟨wrapEnvelope journalBody, none⟩
    else .error ⟨"dial tcp: connection refused"⟩

/-- A decode target with one integer field, `struct{Value int}` with tag `value`. -/
structure ValueTarget where
  Value : Int
  deriving DecidableEq, Repr

/-- The scripted `xml.Unmarshal` into a `ValueTarget`. -/
def intoValue (b : Bytes) (v : ValueTarget) : ValueTarget × Option LibError :=
  if b = [] then (v, some ⟨"EOF"⟩)
  else if b = resultBody then (⟨42⟩, none)
  else (v, none)

/-- A client as `SoapClient` leaves it, for the endpoint `url`. -/
def freshClient (url : String) : Client :=
  { WSDL := "http://ssc.test/service?wsdl", URL := url, Method := "", EnvelopeTitle := "",
    Params := [], Definitions := some ⟨"http://systemsunion.com/connect/webservices/"⟩,
    Body := [], payload := [] }

/-- A client on which the operation `method` left the Result Body `body`. -/
def clientHolding (method : String) (body : Bytes) : Client :=
  { freshClient "http://ssc.test" with Method := method, EnvelopeTitle := method, Body := body }

/-- The request that `Call "Execute" "Journal" []` sends for the endpoint `url`
with the scripted XML library. -/
def executeRequest (url : String) : Request :=
  { Method := "POST", URL := url,
    Body := asciiBytes "<Execute><Journal/></Execute>", ContentLength := 29,
    Header := [("Content-Type", "text/xml;charset=UTF-8"),
               ("Accept", "text/xml"),
               ("SOAPAction", url ++ "/Execute")] }

/-- The scripted loader of service descriptions. -/
def scriptedLoader : Loader where
  urlParse _ := none
  getWsdlDefinitions _ := .ok ⟨"http://systemsunion.com/connect/webservices/"⟩

/-! ## Facts about the `strings` functions -/

theorem containsChars_iff_run (s sub : List Char) :
    containsChars s sub = true ↔ sub <:+: s := by
  induction s with
  | nil => cases sub <;> simp [containsChars]
  | cons ch rest ih =>
    simp only [containsChars, Bool.or_eq_true, List.isPrefixOf_iff_prefix, ih,
      List.infix_cons_iff]

theorem Contains_iff_run (s substr : String) :
    Contains s substr = true ↔ substr.data <:+: s.data :=
  containsChars_iff_run s.data substr.data

theorem Contains_append_mid (a b d : String) : Contains (a ++ b ++ d) b = true := by
  rw [Contains_iff_run]
  exact ⟨a.data, d.data, by simp [String.data_append]⟩

theorem Contains_append_right (a b : String) : Contains (a ++ b) b = true := by
  rw [Contains_iff_run]
  exact ⟨a.data, [], by simp [String.data_append]⟩

/-! ## Extraction before any result is stored -/

/-- C3: on a client whose stored Body is empty, GetResponse returns the empty string
with the error "body is empty" and Unmarshal returns the error "body is empty",
whatever the XML library would decode, whatever the Method and whatever the target
(which is left as it was); a client just built by SoapClient is such a client. -/
theorem empty_body_is_an_error :
    (∀ (x : XmlLib) (c : Client), c.Body = [] →
      GetResponse x c = (c, "", some (.text "body is empty")) ∧
      ∀ (T : Type) (into : Bytes → T → T × Option LibError) (v : T),
        Unmarshal x into c v = (c, v, some (.text "body is empty"))) ∧
    (∀ (ld : Loader) (wsdl urlSoap : String) (c : Client),
      SoapClient ld wsdl urlSoap = .ok c → c.Body = []) := by
  refine ⟨fun x c hb => ⟨?_, fun T into v => ?_⟩, fun ld wsdl urlSoap c hc => ?_⟩
  · simp [GetResponse, hb]
  · simp [Unmarshal, hb]
  · unfold SoapClient at hc
    split at hc
    · cases hc
    · split at hc
      · cases hc
      · cases hc
        rfl

theorem empty_body_is_an_error_witness :
    SoapClient scriptedLoader "http://ssc.test/service?wsdl" "http://result.test"
      = .ok (freshClient "http://result.test") ∧
    GetResponse scriptedXml (freshClient "http://result.test")
      = (freshClient "http://result.test", "", some (.text "body is empty")) ∧
    Unmarshal scriptedXml intoValue (freshClient "http://result.test") ⟨7⟩
      = (freshClient "http://result.test", ⟨7⟩, some (.text "body is empty")) :=
  ⟨rfl,
   (empty_body_is_an_error.1 scriptedXml (freshClient "http://result.test")
      (empty_body_is_an_error.2 scriptedLoader "http://ssc.test/service?wsdl"
        "http://result.test" _ rfl)).1,
   (empty_body_is_an_error.1 scriptedXml (freshClient "http://result.test") rfl).2
      ValueTarget intoValue ⟨7⟩⟩

/-! ## The failure marker of the `Execute` operation -/

/-- C5: with a non-empty Body that decodes to a response text, a client whose Method
is "Execute" gets the empty string and the error "the operation could not be
performed" when the text contains `status="fail"`; a client whose Method is not
"Execute" gets the text back unchanged with a nil error. -/
theorem execute_fail_marker (x : XmlLib) (c : Client) (r : SecurityProviderAuthenticate)
    (hb : c.Body ≠ []) (hd : x.UnmarshalSPAuth c.Body = .ok r) :
    (c.Method = "Execute" → Contains r.Response "status=\"fail\"" = true →
      GetResponse x c = (c, "", some (.text "the operation could not be performed"))) ∧
    (c.Method ≠ "Execute" → GetResponse x c = (c, r.Response, none)) := by
  have hlen : ¬ c.Body.length = 0 := by
    simpa [List.length_eq_zero] using hb
  refine ⟨fun hm hf => ?_, fun hm => ?_⟩
  · simp only [GetResponse, hlen, if_false, hd, hm, hf, if_true]
  · simp only [GetResponse, hlen, if_false, hd, hm]

theorem execute_fail_marker_witness :
    GetResponse scriptedXml (clientHolding "Execute" failBody)
      = (clientHolding "Execute" failBody, "",
         some (.text "the operation could not be performed")) ∧
    GetResponse scriptedXml (clientHolding "Query" failBody)
      = (clientHolding "Query" failBody, failText, none) :=
  ⟨(execute_fail_marker scriptedXml (clientHolding "Execute" failBody) ⟨failText⟩
      (by decide) rfl).1 rfl (by decide),
   (execute_fail_marker scriptedXml (clientHolding "Query" failBody) ⟨failText⟩
      (by decide) rfl).2 (by decide)⟩

/-! ## What `Call` does to the client -/

theorem Call_client (x : XmlLib) (net : HttpLib) (c : Client) (m e : String) (p : Params) :
    (Call x net c m e p).client = afterCall x c m e p ∨
    (Call x net c m e p).err = none ∧
      ∃ body, (Call x net c m e p).client = { afterCall x c m e p with Body := body } := by
  unfold Call afterCall
  dsimp only
  cases hm : x.Marshal { c with EnvelopeTitle := m, Method := e, Params := p } with
  | error err => exact Or.inl rfl
  | ok b =>
    dsimp only
    split
    · exact Or.inl rfl
    · split
      · exact Or.inl rfl
      · exact Or.inr ⟨rfl, _, rfl⟩

theorem Call_sent (x : XmlLib) (net : HttpLib) (c : Client) (m e : String) (p : Params)
    (req : Request) (hs : (Call x net c m e p).sent = some req) :
    (doRequest net (afterCall x c m e p)).1 = some req := by
  unfold Call at hs
  unfold afterCall
  dsimp only at hs ⊢
  cases hm : x.Marshal { c with EnvelopeTitle := m, Method := e, Params := p } with
  | error err => rw [hm] at hs; cases hs
  | ok b =>
    rw [hm] at hs
    dsimp only at hs ⊢
    split at hs
    · rename_i h1; rw [h1]; exact hs
    · rename_i h1
      rw [h1]
      split at hs <;> exact hs

/-! ## The request on the wire -/

/-- C6: whenever Call(m, e, p) on a client with endpoint URL u hands a request to the
transport, that request carries the SOAPAction header u ++ "/" ++ m (and is a POST
to u), whatever the envelope title e and the parameters p are. -/
theorem soap_action_header (x : XmlLib) (net : HttpLib) (c : Client) (m e : String)
    (p : Params) (req : Request) (hs : (Call x net c m e p).sent = some req) :
    req.Header.lookup "SOAPAction" = some (c.URL ++ "/" ++ m) ∧
    req.Header.filter (fun kv => kv.1 = "SOAPAction") = [("SOAPAction", c.URL ++ "/" ++ m)] ∧
    req.Method = "POST" ∧ req.URL = c.URL := by
  have h := Call_sent x net c m e p req hs
  unfold doRequest afterCall at h
  dsimp only at h
  split at h
  · cases h
  · split at h <;>
    · cases h
      exact ⟨rfl, rfl, rfl, rfl⟩

theorem soap_action_header_witness :
    (Call scriptedXml scriptedNet (freshClient "http://journal.test") "Execute" "Journal" []).sent
      = some (executeRequest "http://journal.test") ∧
    (executeRequest "http://journal.test").Header.lookup "SOAPAction"
      = some "http://journal.test/Execute" :=
  ⟨rfl,
   (soap_action_header scriptedXml scriptedNet (freshClient "http://journal.test")
      "Execute" "Journal" [] (executeRequest "http://journal.test") rfl).1⟩

/-! ## Reading the stored result -/

theorem GetResponse_client (x : XmlLib) (c : Client) : (GetResponse x c).1 = c := by
  unfold GetResponse
  split
  · rfl
  · split
    · rfl
    · dsimp only
      repeat' split
      all_goals rfl

theorem Unmarshal_client {T : Type} (x : XmlLib) (into : Bytes → T → T × Option LibError)
    (c : Client) (v : T) : (Unmarshal x into c v).1 = c := by
  unfold Unmarshal
  repeat' split
  all_goals rfl

theorem GetResponse_of_decoded (x : XmlLib) (c : Client) (r : SecurityProviderAuthenticate)
    (hb : c.Body ≠ []) (hd : x.UnmarshalSPAuth c.Body = .ok r) :
    GetResponse x c =
      if c.Method = "Execute" then
        if Contains r.Response "status=\"fail\"" then
          (c, "", some (.text "the operation could not be performed"))
        else
          (c, TrimLeft (TrimRight r.Response "&lt;/JournalNumber&gt;") "&lt;JournalNumber&gt;",
            none)
      else (c, r.Response, none) := by
  have hlen : ¬ c.Body.length = 0 := by
    simpa [List.length_eq_zero] using hb
  simp only [GetResponse, hlen, if_false, hd]

/-- C7: GetResponse and Unmarshal hand back the client with every field as it was,
so running either of them a second time on the client (Unmarshal with a target in
the same initial state) gives the same result as the first time. -/
theorem extraction_is_read_only {T : Type} (x : XmlLib)
    (into : Bytes → T → T × Option LibError) (c : Client) (v : T) :
    (GetResponse x c).1 = c ∧
    (Unmarshal x into c v).1 = c ∧
    GetResponse x (GetResponse x c).1 = GetResponse x c ∧
    Unmarshal x into (Unmarshal x into c v).1 v = Unmarshal x into c v ∧
    Unmarshal x into (GetResponse x c).1 v = Unmarshal x into c v ∧
    GetResponse x (Unmarshal x into c v).1 = GetResponse x c := by
  rw [GetResponse_client, Unmarshal_client]
  exact ⟨rfl, rfl, rfl, rfl, rfl, rfl⟩

/-! ## The fields `Call` leaves behind -/

/-- C10: Call(m, e, p) serialises the payload from the client with EnvelopeTitle = m,
Method = e and Params = p; when it returns, with or without an error, the client has
Method = m, EnvelopeTitle = m and Params = p (WSDL, URL and Definitions are as
before, so e is kept in no field), and a later GetResponse on a decodable Result
Body takes the "Execute" branch exactly when m is "Execute". -/
theorem call_keeps_first_argument_as_method (x : XmlLib) (net : HttpLib) (c : Client)
    (m e : String) (p : Params) :
    (Call x net c m e p).client.payload =
      (match x.Marshal { c with EnvelopeTitle := m, Method := e, Params := p } with
       | .ok b => b
       | .error _ => []) ∧
    (Call x net c m e p).client.Method = m ∧
    (Call x net c m e p).client.EnvelopeTitle = m ∧
    (Call x net c m e p).client.Params = p ∧
    (Call x net c m e p).client.WSDL = c.WSDL ∧
    (Call x net c m e p).client.URL = c.URL ∧
    (Call x net c m e p).client.Definitions = c.Definitions ∧
    ∀ r : SecurityProviderAuthenticate,
      (Call x net c m e p).client.Body ≠ [] →
      x.UnmarshalSPAuth (Call x net c m e p).client.Body = .ok r →
      GetResponse x (Call x net c m e p).client =
        if m = "Execute" then
          if Contains r.Response "status=\"fail\"" then
            ((Call x net c m e p).client, "",
              some (.text "the operation could not be performed"))
          else
            ((Call x net c m e p).client,
              TrimLeft (TrimRight r.Response "&lt;/JournalNumber&gt;") "&lt;JournalNumber&gt;",
              none)
        else ((Call x net c m e p).client, r.Response, none) := by
  have hM : (Call x net c m e p).client.Method = m := by
    rcases Call_client x net c m e p with h | ⟨_, body, h⟩ <;> rw [h] <;> rfl
  refine ⟨?_, hM, ?_, ?_, ?_, ?_, ?_, ?_⟩
  · rcases Call_client x net c m e p with h | ⟨_, body, h⟩ <;> rw [h] <;> rfl
  · rcases Call_client x net c m e p with h | ⟨_, body, h⟩ <;> rw [h] <;> rfl
  · rcases Call_client x net c m e p with h | ⟨_, body, h⟩ <;> rw [h] <;> rfl
  · rcases Call_client x net c m e p with h | ⟨_, body, h⟩ <;> rw [h] <;> rfl
  · rcases Call_client x net c m e p with h | ⟨_, body, h⟩ <;> rw [h] <;> rfl
  · rcases Call_client x net c m e p with h | ⟨_, body, h⟩ <;> rw [h] <;> rfl
  · intro r hb hd
    rw [GetResponse_of_decoded x _ r hb hd, hM]

theorem call_keeps_first_argument_as_method_witness :
    (Call scriptedXml scriptedNet (freshClient "http://journal.test") "Execute" "Journal"
        []).client.payload = asciiBytes "<Execute><Journal/></Execute>" ∧
    (Call scriptedXml scriptedNet (freshClient "http://journal.test") "Execute" "Journal"
        []).client.Method = "Execute" ∧
    GetResponse scriptedXml
        (Call scriptedXml scriptedNet (freshClient "http://journal.test") "Execute" "Journal"
          []).client
      = ((Call scriptedXml scriptedNet (freshClient "http://journal.test") "Execute" "Journal"
          []).client, "ABC123", none) ∧
    GetResponse scriptedXml
        (Call scriptedXml scriptedNet (freshClient "http://journal.test") "Journal" "Execute"
          []).client
      = ((Call scriptedXml scriptedNet (freshClient "http://journal.test") "Journal" "Execute"
          []).client, journalText, none) :=
  ⟨(call_keeps_first_argument_as_method scriptedXml scriptedNet
      (freshClient "http://journal.test") "Execute" "Journal" []).1,
   (call_keeps_first_argument_as_method scriptedXml scriptedNet
      (freshClient "http://journal.test") "Execute" "Journal" []).2.1,
   (call_keeps_first_argument_as_method scriptedXml scriptedNet
      (freshClient "http://journal.test") "Execute" "Journal" []).2.2.2.2.2.2.2
      ⟨journalText⟩ (by decide) rfl,
   (call_keeps_first_argument_as_method scriptedXml scriptedNet
      (freshClient "http://journal.test") "Journal" "Execute" []).2.2.2.2.2.2.2
      ⟨journalText⟩ (by decide) rfl⟩

/-! ## A failed `Call` and the stored result -/

/-- C8, as the code has it: when Call returns an error, the client's Body is what it
was before the Call; a later GetResponse or Unmarshal fails with "body is empty" when
the Body was empty before the Call. -/
theorem failed_call_keeps_body (x : XmlLib) (net : HttpLib) (c : Client) (m e : String)
    (p : Params) (herr : (Call x net c m e p).err ≠ none) :
    (Call x net c m e p).client.Body = c.Body ∧
    (c.Body = [] →
      GetResponse x (Call x net c m e p).client
        = ((Call x net c m e p).client, "", some (.text "body is empty")) ∧
      ∀ (T : Type) (into : Bytes → T → T × Option LibError) (v : T),
        Unmarshal x into (Call x net c m e p).client v
          = ((Call x net c m e p).client, v, some (.text "body is empty"))) := by
  have hB : (Call x net c m e p).client.Body = c.Body := by
    rcases Call_client x net c m e p with h | ⟨h, _⟩
    · rw [h]; rfl
    · exact absurd h herr
  refine ⟨hB, fun h0 => ⟨?_, fun T into v => ?_⟩⟩
  · simp [GetResponse, hB, h0]
  · simp [Unmarshal, hB, h0]

theorem failed_call_keeps_body_witness :
    (Call scriptedXml scriptedNet (clientHolding "Execute" journalBody) "Query" "Ledger"
        []).err = some (.lib ⟨"dial tcp: connection refused"⟩) ∧
    (Call scriptedXml scriptedNet (clientHolding "Execute" journalBody) "Query" "Ledger"
        []).client.Body = journalBody :=
  ⟨rfl,
   (failed_call_keeps_body scriptedXml scriptedNet (clientHolding "Execute" journalBody)
      "Query" "Ledger" [] (by decide)).1⟩

/-- C8 fails as stated: on a client that holds the Result Body of an earlier
invocation, a Call that ends in a transport error leaves that Body in place, and
the following GetResponse returns the earlier invocation's text. -/
theorem failed_call_retains_earlier_body :
    (Call scriptedXml scriptedNet (clientHolding "Execute" journalBody) "Execute" "Journal"
        []).err = some (.lib ⟨"dial tcp: connection refused"⟩) ∧
    (Call scriptedXml scriptedNet (clientHolding "Execute" journalBody) "Execute" "Journal"
        []).client.Body = journalBody ∧
    (Call scriptedXml scriptedNet (clientHolding "Execute" journalBody) "Execute" "Journal"
        []).client.Body ≠ [] ∧
    (GetResponse scriptedXml
        (Call scriptedXml scriptedNet (clientHolding "Execute" journalBody) "Execute" "Journal"
          []).client).2 = ("ABC123", none) :=
  ⟨rfl, rfl, by decide, rfl⟩

/-! ## Faults -/

theorem Unmarshal_of_fault_decoded {T : Type} (x : XmlLib)
    (into : Bytes → T → T × Option LibError) (c : Client) (v : T) (f : Fault)
    (hb : c.Body ≠ []) (hf : x.UnmarshalFault c.Body = .ok f) :
    Unmarshal x into c v =
      if f.Code ≠ "" then (c, v, some (.text ("[" ++ f.Code ++ "]: " ++ f.Description)))
      else (c, (into c.Body v).1, (into c.Body v).2.map GoError.lib) := by
  have hlen : ¬ c.Body.length = 0 := by
    simpa [List.length_eq_zero] using hb
  simp only [Unmarshal, hlen, if_false, hf]

/-- C2: on a client with a non-empty Body on which the fault decode succeeds,
Unmarshal returns the error "[code]: description" and leaves the target as it was
if and only if the decoded fault code is non-empty; when the fault code is empty the
result is exactly the outcome of decoding Body into the target. -/
theorem unmarshal_checks_fault_first {T : Type} (x : XmlLib)
    (into : Bytes → T → T × Option LibError) (c : Client) (v : T) (f : Fault)
    (hb : c.Body ≠ []) (hf : x.UnmarshalFault c.Body = .ok f) :
    (Unmarshal x into c v = (c, v, some (.text ("[" ++ f.Code ++ "]: " ++ f.Description)))
      ↔ f.Code ≠ "") ∧
    (f.Code = "" →
      Unmarshal x into c v = (c, (into c.Body v).1, (into c.Body v).2.map GoError.lib)) := by
  rw [Unmarshal_of_fault_decoded x into c v f hb hf]
  refine ⟨⟨fun h hc => ?_, fun hc => by rw [if_pos hc]⟩, fun hc => by simp [hc]⟩
  rw [if_neg (not_not.mpr hc)] at h
  have h2 := congrArg (fun t => t.2.2) h
  dsimp only at h2
  cases hi : (into c.Body v).2 with
  | none => rw [hi] at h2; cases h2
  | some err => rw [hi] at h2; cases h2

theorem unmarshal_checks_fault_first_witness :
    Unmarshal scriptedXml intoValue (clientHolding "Query" resultBody) ⟨0⟩
      = (clientHolding "Query" resultBody, ⟨42⟩, none) ∧
    Unmarshal scriptedXml intoValue (clientHolding "Query" faultBody) ⟨0⟩
      = (clientHolding "Query" faultBody, ⟨0⟩,
         some (.text "[Server.InvalidParam]: bad value")) :=
  ⟨(unmarshal_checks_fault_first scriptedXml intoValue (clientHolding "Query" resultBody)
      ⟨0⟩ ⟨"", ""⟩ (by decide) rfl).2 rfl,
   (unmarshal_checks_fault_first scriptedXml intoValue (clientHolding "Query" faultBody)
      ⟨0⟩ ⟨"Server.InvalidParam", "bad value"⟩ (by decide) rfl).1.2 (by decide)⟩

/-- C1, as the code has it: when the transport answers and the envelope decodes,
Call returns a nil error and stores the body content as Body, also when that content
is non-empty and decodes to a fault with a non-empty code; the error
"[code]: description", whose message contains the code and the description, is
returned by a later Unmarshal, which leaves its target as it was. -/
theorem fault_is_reported_by_unmarshal (x : XmlLib) (net : HttpLib) (c : Client)
    (m e : String) (p : Params) (pl b : Bytes) (sent : Option Request) (soap : SoapEnvelope)
    (f : Fault)
    (hm : x.Marshal { c with EnvelopeTitle := m, Method := e, Params := p } = .ok pl)
    (hr : doRequest net { c with EnvelopeTitle := m, Method := m, Params := p, payload := pl }
            = (sent, b, none))
    (he : x.UnmarshalEnvelope b = .ok soap)
    (hne : soap.Body.Contents ≠ [])
    (hf : x.UnmarshalFault soap.Body.Contents = .ok f) (hc : f.Code ≠ "") :
    (Call x net c m e p).err = none ∧
    (Call x net c m e p).client.Body = soap.Body.Contents ∧
    (∀ (T : Type) (into : Bytes → T → T × Option LibError) (v : T),
      Unmarshal x into (Call x net c m e p).client v
        = ((Call x net c m e p).client, v,
            some (.text ("[" ++ f.Code ++ "]: " ++ f.Description)))) ∧
    Contains (GoError.text ("[" ++ f.Code ++ "]: " ++ f.Description)).Error f.Code = true ∧
    Contains (GoError.text ("[" ++ f.Code ++ "]: " ++ f.Description)).Error f.Description
      = true := by
  have hcall : Call x net c m e p =
      ⟨{ c with EnvelopeTitle := m, Method := m, Params := p, payload := pl,
                Body := soap.Body.Contents }, sent, none⟩ := by
    unfold Call
    dsimp only
    rw [hm]
    dsimp only
    rw [hr]
    dsimp only
    rw [he]
  refine ⟨by rw [hcall], by rw [hcall], fun T into v => ?_, ?_, ?_⟩
  · have hb : (Call x net c m e p).client.Body ≠ [] := by rw [hcall]; exact hne
    have hf2 : x.UnmarshalFault (Call x net c m e p).client.Body = .ok f := by
      rw [hcall]; exact hf
    rw [Unmarshal_of_fault_decoded x into _ v f hb hf2, if_pos hc]
  · have h := Contains_append_mid "[" f.Code ("]: " ++ f.Description)
    simpa [GoError.Error, String.append_assoc] using h
  · exact Contains_append_right ("[" ++ f.Code ++ "]: ") f.Description

theorem fault_is_reported_by_unmarshal_witness :
    (Call scriptedXml scriptedNet (freshClient "http://fault.test") "Execute" "Journal"
        []).err = none ∧
    (Call scriptedXml scriptedNet (freshClient "http://fault.test") "Execute" "Journal"
        []).client.Body = faultBody ∧
    Unmarshal scriptedXml intoValue
        (Call scriptedXml scriptedNet (freshClient "http://fault.test") "Execute" "Journal"
          []).client ⟨0⟩
      = ((Call scriptedXml scriptedNet (freshClient "http://fault.test") "Execute" "Journal"
          []).client, ⟨0⟩, some (.text "[Server.InvalidParam]: bad value")) :=
  ⟨(fault_is_reported_by_unmarshal scriptedXml scriptedNet (freshClient "http://fault.test")
      "Execute" "Journal" [] (asciiBytes "<Execute><Journal/></Execute>")
      (wrapEnvelope faultBody) (some (executeRequest "http://fault.test")) ⟨⟨faultBody⟩⟩
      ⟨"Server.InvalidParam", "bad value"⟩ rfl rfl rfl (by decide) rfl (by decide)).1,
   (fault_is_reported_by_unmarshal scriptedXml scriptedNet (freshClient "http://fault.test")
      "Execute" "Journal" [] (asciiBytes "<Execute><Journal/></Execute>")
      (wrapEnvelope faultBody) (some (executeRequest "http://fault.test")) ⟨⟨faultBody⟩⟩
      ⟨"Server.InvalidParam", "bad value"⟩ rfl rfl rfl (by decide) rfl (by decide)).2.1,
   (fault_is_reported_by_unmarshal scriptedXml scriptedNet (freshClient "http://fault.test")
      "Execute" "Journal" [] (asciiBytes "<Execute><Journal/></Execute>")
      (wrapEnvelope faultBody) (some (executeRequest "http://fault.test")) ⟨⟨faultBody⟩⟩
      ⟨"Server.InvalidParam", "bad value"⟩ rfl rfl rfl (by decide) rfl (by decide)).2.2.1
      ValueTarget intoValue ⟨0⟩⟩

/-- C1 fails as stated: the server answers with an envelope whose body content decodes
to the fault with code "Server.InvalidParam" and description "bad value", and Call
returns a nil error and keeps that content as the Result Body. -/
theorem call_returns_nil_on_fault :
    (Call scriptedXml scriptedNet (freshClient "http://fault.test") "Execute" "Journal"
        []).sent = some (executeRequest "http://fault.test") ∧
    scriptedNet.Do (executeRequest "http://fault.test") = .ok ⟨wrapEnvelope faultBody, none⟩ ∧
    scriptedXml.UnmarshalEnvelope (wrapEnvelope faultBody) = .ok ⟨⟨faultBody⟩⟩ ∧
    scriptedXml.UnmarshalFault faultBody = .ok ⟨"Server.InvalidParam", "bad value"⟩ ∧
    (Call scriptedXml scriptedNet (freshClient "http://fault.test") "Execute" "Journal"
        []).err = none ∧
    (Call scriptedXml scriptedNet (freshClient "http://fault.test") "Execute" "Journal"
        []).client.Body = faultBody :=
  ⟨rfl, rfl, rfl, rfl, rfl, rfl⟩

/-! ## The trim of the `Execute` operation -/

theorem rdropWhile_append_rtakeWhile_eq {α : Type} (q : α → Bool) (l : List α) :
    l.rdropWhile q ++ l.rtakeWhile q = l := by
  unfold List.rdropWhile List.rtakeWhile
  rw [← List.reverse_append, List.takeWhile_append_dropWhile, List.reverse_reverse]

theorem getLast?_rdropWhile_not {α : Type} (q : α → Bool) (l : List α) (a : α)
    (h : (l.rdropWhile q).getLast? = some a) : q a = false := by
  have hne : l.rdropWhile q ≠ [] := by
    intro h0; rw [h0] at h; cases h
  have h1 := List.rdropWhile_last_not q l hne
  rw [List.getLast?_eq_getLast _ hne] at h
  cases h
  simpa using h1

theorem getLast?_of_dropWhile {α : Type} (q : α → Bool) (l : List α) (a : α)
    (h : (l.dropWhile q).getLast? = some a) : l.getLast? = some a := by
  have hne : l.dropWhile q ≠ [] := by
    intro h0; rw [h0] at h; cases h
  have hs := List.dropWhile_suffix (l := l) q
  have hl : l ≠ [] := by
    intro h0; rw [h0] at hne; exact hne rfl
  rw [List.getLast?_eq_getLast _ hne] at h
  rw [List.getLast?_eq_getLast _ hl, ← hs.getLast hne]
  exact h

theorem rdropWhile_eq_self_of_getLast? {α : Type} (q : α → Bool) (l : List α)
    (h : ∀ a, l.getLast? = some a → q a = false) : l.rdropWhile q = l := by
  rw [List.rdropWhile_eq_self_iff]
  intro hl
  have := h _ (List.getLast?_eq_getLast l hl)
  simp [this]

theorem trailing_cutset_iff (ch : Char) :
    "&lt;/JournalNumber&gt;".data.contains ch = true ↔ ch ∈ trailingSet := by
  rw [List.contains, List.elem_iff]
  unfold trailingSet
  simp only [List.mem_cons, List.mem_singleton, List.not_mem_nil, or_false]
  tauto

theorem leading_cutset_iff (ch : Char) :
    "&lt;JournalNumber&gt;".data.contains ch = true ↔ ch ∈ leadingSet := by
  rw [List.contains, List.elem_iff]
  unfold leadingSet
  simp only [List.mem_cons, List.mem_singleton, List.not_mem_nil, or_false]
  tauto

/-- C9: for a client whose Method is "Execute" and a decoded response text s without
`status="fail"`, GetResponse returns, with a nil error, the contiguous part `out` of
s = pre ++ out ++ suf where suf is the longest suffix of s made only of characters
of {&,l,t,;,/,J,o,u,r,n,a,N,m,b,e,g} and pre is the longest prefix of what is left
made only of characters of {&,l,t,;,J,o,u,r,n,a,N,m,b,e,g}; `out` does not end with
a character of the first set, does not begin with a character of the second set,
and trimming it again gives it back unchanged. -/
theorem execute_trim_is_by_character_set (x : XmlLib) (c : Client)
    (r : SecurityProviderAuthenticate) (hb : c.Body ≠ [])
    (hd : x.UnmarshalSPAuth c.Body = .ok r) (hm : c.Method = "Execute")
    (hf : Contains r.Response "status=\"fail\"" = false) :
    ∃ (out : String) (pre suf : List Char),
      GetResponse x c = (c, out, none) ∧
      r.Response.data = pre ++ out.data ++ suf ∧
      (∀ ch ∈ suf, ch ∈ trailingSet) ∧
      (∀ ch, (pre ++ out.data).getLast? = some ch → ch ∉ trailingSet) ∧
      (∀ ch ∈ pre, ch ∈ leadingSet) ∧
      (∀ ch, out.data.head? = some ch → ch ∉ leadingSet) ∧
      (∀ ch, out.data.getLast? = some ch → ch ∉ trailingSet) ∧
      TrimLeft (TrimRight out "&lt;/JournalNumber&gt;") "&lt;JournalNumber&gt;" = out := by
  let qR : Char → Bool := fun ch => "&lt;/JournalNumber&gt;".data.contains ch
  let qL : Char → Bool := fun ch => "&lt;JournalNumber&gt;".data.contains ch
  have hR : ∀ ch, qR ch = false → ch ∉ trailingSet := fun ch h hmem => by
    have := (trailing_cutset_iff ch).mpr hmem
    rw [show "&lt;/JournalNumber&gt;".data.contains ch = qR ch from rfl, h] at this
    cases this
  have hL : ∀ ch, qL ch = false → ch ∉ leadingSet := fun ch h hmem => by
    have := (leading_cutset_iff ch).mpr hmem
    rw [show "&lt;JournalNumber&gt;".data.contains ch = qL ch from rfl, h] at this
    cases this
  have hlastOut : ∀ ch, ((r.Response.data.rdropWhile qR).dropWhile qL).getLast? = some ch →
      qR ch = false := fun ch h =>
    getLast?_rdropWhile_not qR _ ch (getLast?_of_dropWhile qL _ ch h)
  refine ⟨⟨(r.Response.data.rdropWhile qR).dropWhile qL⟩,
    (r.Response.data.rdropWhile qR).takeWhile qL, r.Response.data.rtakeWhile qR,
    ?_, ?_, ?_, ?_, ?_, ?_, ?_, ?_⟩
  · rw [GetResponse_of_decoded x c r hb hd, if_pos hm, hf]
    rfl
  · rw [List.takeWhile_append_dropWhile, rdropWhile_append_rtakeWhile_eq]
  · intro ch hch
    exact (trailing_cutset_iff ch).mp (List.mem_rtakeWhile_imp hch)
  · intro ch hch
    rw [List.takeWhile_append_dropWhile] at hch
    exact hR ch (getLast?_rdropWhile_not qR _ ch hch)
  · intro ch hch
    exact (leading_cutset_iff ch).mp (List.mem_takeWhile_imp hch)
  · intro ch hch
    apply hL
    have h1 := List.head?_dropWhile_not qL (r.Response.data.rdropWhile qR)
    rw [show (String.mk ((r.Response.data.rdropWhile qR).dropWhile qL)).data
          = (r.Response.data.rdropWhile qR).dropWhile qL from rfl] at hch
    rw [hch] at h1
    simpa using h1
  · intro ch hch
    exact hR ch (hlastOut ch hch)
  · unfold TrimLeft TrimRight
    congr 1
    show List.dropWhile qL (List.rdropWhile qR
      ((r.Response.data.rdropWhile qR).dropWhile qL)) = _
    rw [rdropWhile_eq_self_of_getLast? qR _ hlastOut, List.dropWhile_idempotent]

theorem execute_trim_is_by_character_set_witness :
    GetResponse scriptedXml (clientHolding "Execute" ledgerBody)
      = (clientHolding "Execute" ledgerBody, "RN-2024-00017", none) ∧
    ledgerText.data
      = "&lt;JournalNumber&gt;J".data ++ "RN-2024-00017".data
          ++ "&lt;/JournalNumber&gt;".data ∧
    ∃ (out : String) (pre suf : List Char),
      GetResponse scriptedXml (clientHolding "Execute" ledgerBody)
        = (clientHolding "Execute" ledgerBody, out, none) ∧
      ledgerText.data = pre ++ out.data ++ suf ∧
      (∀ ch ∈ suf, ch ∈ trailingSet) ∧
      (∀ ch, (pre ++ out.data).getLast? = some ch → ch ∉ trailingSet) ∧
      (∀ ch ∈ pre, ch ∈ leadingSet) ∧
      (∀ ch, out.data.head? = some ch → ch ∉ leadingSet) ∧
      (∀ ch, out.data.getLast? = some ch → ch ∉ trailingSet) ∧
      TrimLeft (TrimRight out "&lt;/JournalNumber&gt;") "&lt;JournalNumber&gt;" = out :=
  ⟨rfl, by decide,
   execute_trim_is_by_character_set scriptedXml (clientHolding "Execute" ledgerBody)
     ⟨ledgerText⟩ (by decide) rfl rfl (by decide)⟩

/-- C4 at two inner texts: for the response text
"&lt;JournalNumber&gt;" ++ x ++ "&lt;/JournalNumber&gt;" of an "Execute" client,
without `status="fail"`, GetResponse returns x when x is "ABC123", and returns
"RN-2024-00017" when x is "JRN-2024-00017". -/
theorem execute_trim_cuts_into_inner_text :
    journalText = "&lt;JournalNumber&gt;" ++ "ABC123" ++ "&lt;/JournalNumber&gt;" ∧
    Contains journalText "status=\"fail\"" = false ∧
    GetResponse scriptedXml (clientHolding "Execute" journalBody)
      = (clientHolding "Execute" journalBody, "ABC123", none) ∧
    ledgerText = "&lt;JournalNumber&gt;" ++ "JRN-2024-00017" ++ "&lt;/JournalNumber&gt;" ∧
    Contains ledgerText "status=\"fail\"" = false ∧
    scriptedXml.UnmarshalSPAuth ledgerBody = .ok ⟨ledgerText⟩ ∧
    GetResponse scriptedXml (clientHolding "Execute" ledgerBody)
      = (clientHolding "Execute" ledgerBody, "RN-2024-00017", none) ∧
    "RN-2024-00017" ≠ "JRN-2024-00017" :=
  ⟨by decide, by decide, rfl, by decide, by decide, rfl, rfl, by decide⟩

/-! ## When the trim returns the inner text -/

theorem rdropWhile_append_of_pos {α : Type} (q : α → Bool) (l₁ l₂ : List α)
    (h : ∀ a ∈ l₂, q a = true) : (l₁ ++ l₂).rdropWhile q = l₁.rdropWhile q := by
  unfold List.rdropWhile
  rw [List.reverse_append, List.dropWhile_append_of_pos]
  intro a ha
  exact h a (List.mem_reverse.mp ha)

theorem trim_markers_of_clean_ends (inner : List Char)
    (hhead : ∀ ch, inner.head? = some ch → ch ∉ leadingSet)
    (hlast : ∀ ch, inner.getLast? = some ch → ch ∉ trailingSet) :
    List.dropWhile (fun ch => "&lt;JournalNumber&gt;".data.contains ch)
      (List.rdropWhile (fun ch => "&lt;/JournalNumber&gt;".data.contains ch)
        ("&lt;JournalNumber&gt;".data ++ inner ++ "&lt;/JournalNumber&gt;".data)) = inner := by
  have hRR : ∀ a ∈ "&lt;/JournalNumber&gt;".data,
      "&lt;/JournalNumber&gt;".data.contains a = true := fun a ha => List.elem_iff.mpr ha
  have hLL : ∀ a ∈ "&lt;JournalNumber&gt;".data,
      "&lt;JournalNumber&gt;".data.contains a = true := fun a ha => List.elem_iff.mpr ha
  have hLR : ∀ a ∈ "&lt;JournalNumber&gt;".data,
      "&lt;/JournalNumber&gt;".data.contains a = true := by decide
  rw [rdropWhile_append_of_pos _ _ _ hRR]
  cases inner with
  | nil =>
    rw [List.append_nil, List.rdropWhile_eq_nil_iff.mpr hLR]
    rfl
  | cons a rest =>
    have hkeep : List.rdropWhile (fun ch => "&lt;/JournalNumber&gt;".data.contains ch)
        ("&lt;JournalNumber&gt;".data ++ a :: rest)
        = "&lt;JournalNumber&gt;".data ++ a :: rest := by
      apply rdropWhile_eq_self_of_getLast?
      intro b hb
      rw [List.getLast?_append_of_ne_nil _ (List.cons_ne_nil a rest)] at hb
      have hnot := hlast b hb
      cases hq : "&lt;/JournalNumber&gt;".data.contains b with
      | false => rfl
      | true => exact absurd ((trailing_cutset_iff b).mp hq) hnot
    rw [hkeep, List.dropWhile_append_of_pos hLL]
    have hnot := hhead a rfl
    have hq : ¬ ("&lt;JournalNumber&gt;".data.contains a = true) := fun hq =>
      hnot ((leading_cutset_iff a).mp hq)
    rw [List.dropWhile_cons_of_neg hq]

/-- The marker reading of the trim holds when the inner text neither begins with a
character of the leading cutset nor ends with a character of the trailing cutset:
then GetResponse returns the inner text itself. -/
theorem execute_trim_exact_of_clean_ends (x : XmlLib) (c : Client)
    (r : SecurityProviderAuthenticate) (inner : String) (hb : c.Body ≠ [])
    (hd : x.UnmarshalSPAuth c.Body = .ok r) (hm : c.Method = "Execute")
    (ht : r.Response = "&lt;JournalNumber&gt;" ++ inner ++ "&lt;/JournalNumber&gt;")
    (hf : Contains r.Response "status=\"fail\"" = false)
    (hhead : ∀ ch, inner.data.head? = some ch → ch ∉ leadingSet)
    (hlast : ∀ ch, inner.data.getLast? = some ch → ch ∉ trailingSet) :
    GetResponse x c = (c, inner, none) := by
  rw [GetResponse_of_decoded x c r hb hd, if_pos hm, hf]
  simp only [Bool.false_eq_true, if_false]
  have htrim : TrimLeft (TrimRight r.Response "&lt;/JournalNumber&gt;") "&lt;JournalNumber&gt;"
      = inner := by
    unfold TrimLeft TrimRight
    apply String.ext
    show List.dropWhile _ (List.rdropWhile _ r.Response.data) = inner.data
    rw [ht, String.data_append, String.data_append]
    exact trim_markers_of_clean_ends inner.data hhead hlast
  rw [htrim]

theorem execute_trim_exact_of_clean_ends_witness :
    GetResponse scriptedXml (clientHolding "Execute" journalBody)
      = (clientHolding "Execute" journalBody, "ABC123", none) :=
  execute_trim_exact_of_clean_ends scriptedXml (clientHolding "Execute" journalBody)
    ⟨journalText⟩ "ABC123" (by decide) rfl rfl (by decide) (by decide) (by decide) (by decide)

end gosoap
